import Mathlib

/-!
Verification of the status-synchronization core of `bot.py`: target
registry, active-target resolution, retrying HTTP fetch, response cache,
session state and the status-message upsert, shallowly embedded in Lean.
-/

/-- One tracked server: an entry of the `servers` list persisted in
`servers.json` (`{"id": ..., "name": ...}`).  Ids are written by the bot
as decimal strings produced by `extract_bm_id`. -/
structure Server where
  id : String
  name : String
deriving DecidableEq, Repr

/-- Embeds `_current_selected_server_id` (bot.py:224-228): reads the
persisted `selected_server_id` and `str`-normalises it; `None` when the
key is absent.  The stored value is itself a string (written by
`_set_selected_server_id`), so the `str` call is the identity here. -/
def current_selected_server_id (selected : Option String) : Option String :=
  selected

/-- Embeds `_resolve_active_server_id` (bot.py:244-256).  `stored` is the
persisted `selected_server_id` as read by `_current_selected_server_id`.
The Python guard `if stored_id and stored_id in valid_ids` tests string
truthiness first, hence the explicit `t ≠ ""` conjunct. -/
def resolve_active_server_id (servers : List Server) (stored : Option String)
    (preferred : Option String) : Option String :=
  match servers with
  | [] => none
  | s0 :: _ =>
    let valid := servers.map Server.id
    let fromStored : Option String :=
      match current_selected_server_id stored with
      | some t => if t ≠ "" ∧ valid.contains t then some t else some s0.id
      | none => some s0.id
    match preferred with
    | some p => if valid.contains p then some p else fromStored
    | none => fromStored

/-- The whitespace characters removed by Python `str.strip()` (the ASCII
ones; the claims involve only these). -/
def isPySpace (c : Char) : Bool :=
  c = ' ' ∨ c = '\t' ∨ c = '\n' ∨ c = '\r' ∨ c = '\x0b' ∨ c = '\x0c'

/-- `url.strip()` of bot.py:117: drop leading and trailing whitespace. -/
def pyStrip (s : List Char) : List Char :=
  ((s.dropWhile isPySpace).reverse.dropWhile isPySpace).reverse

/-- The literal part of the regex `/servers/dayz/(\d+)` (bot.py:119). -/
def litServers : List Char := "/servers/dayz/".toList

/-- Match a literal at the front of a string; on success return the rest. -/
def matchLit : List Char → List Char → Option (List Char)
  | [], s => some s
  | _ :: _, [] => none
  | l :: ls, c :: cs => if c = l then matchLit ls cs else none

/-- The maximal digit run at the front of a string: the greedy `\d+`. -/
def digitRun : List Char → List Char
  | [] => []
  | c :: cs => if c.isDigit then c :: digitRun cs else []

/-- `re.search(r"/servers/dayz/(\d+)", url)` (bot.py:119): scan left to
right for the literal followed by at least one digit; capture the maximal
digit run after the literal. -/
def searchDayz : List Char → Option (List Char)
  | [] => none
  | c :: cs =>
    match matchLit litServers (c :: cs) with
    | some rest =>
      match rest with
      | d :: _ => if d.isDigit then some (digitRun rest) else searchDayz cs
      | [] => searchDayz cs
    | none => searchDayz cs

/-- Embeds `extract_bm_id` (bot.py:111-125): empty input is rejected
(`if not url`), the input is stripped, the URL pattern is tried first,
then a bare digit string (`re.fullmatch(r"\d+", url)`). -/
def extract_bm_id (url : String) : Option String :=
  if url = "" then none
  else
    let u := pyStrip url.toList
    match searchDayz u with
    | some d => some (String.mk d)
    | none =>
      if u ≠ [] ∧ u.all Char.isDigit then some (String.mk u) else none

/-- Spec-side predicate (§6 of the spec): the input contains
`/servers/dayz/<digits>` somewhere. -/
def hasDayzLink (u : List Char) : Prop :=
  ∃ l ds r, u = l ++ litServers ++ ds ++ r ∧ ds ≠ [] ∧ ds.all Char.isDigit

/-- Spec-side predicate: a bare digit string. -/
def isBareDigits (u : List Char) : Prop :=
  u ≠ [] ∧ u.all Char.isDigit

/-- One HTTP attempt's outcome as seen by `aiohttp_request` (bot.py:49-86):
a response with status < 400 carrying a payload (`.json()`/`.text()`
collapsed to one string), an HTTP 429 whose `Retry-After` header is
absent (`none`), present but unparseable (`some none`) or parseable as
`w` seconds (`some (some w)`), another status ≥ 400 with its body text,
or a network-level failure (timeout, connection error). -/
inductive HttpEvent where
  | success (payload : String)
  | rate (retryAfter : Option (Option ℚ)) (body : String)
  | httpError (status : Nat) (body : String)
  | netError (msg : String)
deriving DecidableEq, Repr

/-- An exception raised by `aiohttp_request`: the `RuntimeError` built
from an HTTP status and body, or the underlying network error. -/
inductive FetchErr where
  | http (status : Nat) (body : String)
  | net (msg : String)
deriving DecidableEq, Repr

/-- How a call to `aiohttp_request` ends: a returned payload, a raised
exception, the implicit `return None` when the `for` loop is exhausted
without returning or raising, or (model-only) running out of supplied
events. -/
inductive FetchOutcome where
  | ok (payload : String)
  | raised (e : FetchErr)
  | retNone
  | starved
deriving DecidableEq, Repr

/-- Embeds the retry loop of `aiohttp_request` (bot.py:49-86).  `rem` is
the number of loop iterations still available (`retries - attempt`, so
the loop guard `attempt in range(retries)` becomes `rem = 0` ↦ exit and
the last-attempt test `attempt == retries - 1` becomes `rem = 1`); `a`
is the Python loop variable `attempt`, used for the backoff exponent.
Each iteration issues one GET, consuming the head of the event list;
`jit` gives the value drawn by `random.uniform(0, 0.5)` at a given
attempt.  Returns the outcome and the list of `asyncio.sleep` durations
in order.  On a 429 with parseable `Retry-After` the code sleeps that
long and `continue`s; with the header present but unparseable it sleeps
`base * 2 ** attempt` and `continue`s; with the header absent it falls
through to `raise RuntimeError(f"HTTP {status}: ...")`, which the
generic handler retries with backoff-plus-jitter or re-raises on the
last attempt, like any other status ≥ 400 or network error. -/
def fetchLoop (base : ℚ) (jit : Nat → ℚ) :
    Nat → Nat → List HttpEvent → FetchOutcome × List ℚ
  | 0, _, _ => (.retNone, [])
  | _ + 1, _, [] => (.starved, [])
  | rem + 1, a, e :: rest =>
    match e with
    | .success p => (.ok p, [])
    | .rate (some (some w)) _ =>
      let r := fetchLoop base jit rem (a + 1) rest
      (r.1, w :: r.2)
    | .rate (some none) _ =>
      let r := fetchLoop base jit rem (a + 1) rest
      (r.1, base * 2 ^ a :: r.2)
    | .rate none b =>
      if rem = 0 then (.raised (.http 429 b), [])
      else
        let r := fetchLoop base jit rem (a + 1) rest
        (r.1, (base * 2 ^ a + jit a) :: r.2)
    | .httpError s b =>
      if rem = 0 then (.raised (.http s b), [])
      else
        let r := fetchLoop base jit rem (a + 1) rest
        (r.1, (base * 2 ^ a + jit a) :: r.2)
    | .netError m =>
      if rem = 0 then (.raised (.net m), [])
      else
        let r := fetchLoop base jit rem (a + 1) rest
        (r.1, (base * 2 ^ a + jit a) :: r.2)

/-- `aiohttp_request(url, ...)` (bot.py:39-86) run against a given event
sequence; in the source `retries` defaults to 3 and `base` (the
`base_backoff` parameter) to 0.5. -/
def aiohttp_request (retries : Nat) (base : ℚ) (jit : Nat → ℚ)
    (evs : List HttpEvent) : FetchOutcome × List ℚ :=
  fetchLoop base jit retries 0 evs

/-- The status dict built by `get_status_battlemetrics` / `fetch_status`.
Missing keys of the Python dict are `none`. -/
structure Snapshot where
  online : Bool
  name : Option String
  players : Option Nat
  max_players : Option Nat
  game_port : Option String
  server_time : Option String
  source : Option String
  server_id : String
  error : Option String
deriving DecidableEq, Repr

/-- `data.attributes` of the BattleMetrics API payload (spec §6). -/
structure BMAttrs where
  name : Option String
  status : Option String
  players : Option Nat
  maxPlayers : Option Nat
  ip : Option String
  port : Option Nat
deriving DecidableEq, Repr

/-- The `data` member of the API payload. -/
structure BMData where
  attributes : Option BMAttrs
deriving DecidableEq, Repr

/-- The parsed API payload: `payload.get("data")` may be absent. -/
structure BMPayload where
  data : Option BMData
deriving DecidableEq, Repr

/-- The empty attribute dict produced by the `or {}` fallbacks. -/
def defaultBMAttrs : BMAttrs :=
  { name := none, status := none, players := none, maxPlayers := none,
    ip := none, port := none }

/-- The in-memory `STATUS_CACHE` (bot.py:25): server id ↦
`(fetched_at, snapshot)`.  Dict assignment is modeled by prepending, with
lookup taking the most recent binding. -/
abbrev StatusCache := List (String × ℚ × Snapshot)

/-- `STATUS_CACHE.get(server_id)`. -/
def cacheLookup (cache : StatusCache) (sid : String) : Option (ℚ × Snapshot) :=
  (cache.find? (fun e => e.1 == sid)).map (fun e => e.2)

/-- `STATUS_CACHE[server_id] = (time.time(), result)`. -/
def cacheInsert (cache : StatusCache) (sid : String) (t : ℚ)
    (snap : Snapshot) : StatusCache :=
  (sid, t, snap) :: cache

/-- `CACHE_TTL = 10.0` (bot.py:26). -/
def CACHE_TTL : ℚ := 10

/-- The failure snapshot built in the `except` branch of
`get_status_battlemetrics` (bot.py:285). -/
def failureSnapshot (sid : String) : Snapshot :=
  { online := false, name := none, players := none, max_players := none,
    game_port := none, server_time := none, source := none,
    server_id := sid, error := some "Failed to fetch from BattleMetrics" }

/-- Embeds `get_status_battlemetrics` (bot.py:273-319).  `tRead` is the
`time.time()` taken at entry (line 277) and `tWrite` the one taken when
an entry is stored (lines 286 and 318).  `fetch` is the outcome of the
`aiohttp_request` call: `.error` when it raised (caught by the `except`
clause at line 283), `.ok (some payload)` when it returned a parsed
dict, and `.ok none` when it returned the `None` sentinel by falling
off its retry loop (the C4 input, see `fetch_sentinel_on_exhaustion`).
In that last case `payload.get("data")` at line 288 runs outside the
`try` block and raises `AttributeError`, which escapes this function
without touching the cache; the model returns `.error` for it.
`scrape` is the in-game time scraped from the server page (`None` on
any scrape failure).  On the non-raising paths the result carries the
snapshot, the updated cache, and whether a network fetch was
performed. -/
def get_status_battlemetrics (cache : StatusCache) (sid : String)
    (tRead tWrite : ℚ) (fetch : Except String (Option BMPayload))
    (scrape : Option String) :
    Except String (Snapshot × StatusCache × Bool) :=
  let hit : Option Snapshot :=
    match cacheLookup cache sid with
    | some (t, snap) => if tRead - t < CACHE_TTL then some snap else none
    | none => none
  match hit with
  | some snap => .ok (snap, cache, false)
  | none =>
    match fetch with
    | .error _ =>
      let result := failureSnapshot sid
      .ok (result, cacheInsert cache sid tWrite result, true)
    | .ok none => .error "AttributeError"
    | .ok (some payload) =>
      let attrs :=
        match payload.data with
        | some d => d.attributes.getD defaultBMAttrs
        | none => defaultBMAttrs
      let name :=
        match attrs.name with
        | some n => if n = "" then "Server " ++ sid else n
        | none => "Server " ++ sid
      let status := (attrs.status.getD "").toLower
      let game_port :=
        match attrs.ip, attrs.port with
        | some ip, some port =>
          if ip ≠ "" ∧ port ≠ 0 then some (ip ++ ":" ++ toString port) else none
        | some _, none => none
        | none, _ => none
      let result : Snapshot :=
        { online := status == "online", name := some name,
          players := attrs.players, max_players := attrs.maxPlayers,
          game_port := game_port, server_time := scrape,
          source := some "BattleMetrics", server_id := sid, error := none }
      .ok (result, cacheInsert cache sid tWrite result, true)

/-- Embeds `fetch_status` (bot.py:369-374): passes the cache layer's
result through; an exception escaping `get_status_battlemetrics` — the
`AttributeError` on the `None`-sentinel payload — is converted to a
minimal failure snapshot, leaving the cache as it was. -/
def fetch_status (sid : String) (cache : StatusCache)
    (r : Except String (Snapshot × StatusCache × Bool)) :
    Snapshot × StatusCache × Bool :=
  match r with
  | .ok x => x
  | .error e =>
    ({ online := false, name := none, players := none, max_players := none,
       game_port := none, server_time := none, source := none,
       server_id := sid, error := some e }, cache, false)

/-- The persisted session state `status_state.json` (bot.py:200), as the
two keys the program uses: the status message id and the selected server
id; an absent key is `none`. -/
structure BotState where
  status_message_id : Option Nat
  selected_server_id : Option String
deriving DecidableEq, Repr

/-- Embeds `_set_selected_server_id` (bot.py:231-241): normalises, skips
the write when unchanged, pops the key on `None`, stores otherwise.
Returns the new state and whether `save_state` was called. -/
def set_selected_server_id (st : BotState) (sid : Option String) :
    BotState × Bool :=
  let current := current_selected_server_id st.selected_server_id
  if current = sid then (st, false)
  else ({ st with selected_server_id := sid }, true)

/-- The chat platform's answer to fetching-then-editing the stored status
message (spec §6): ok, `discord.NotFound`, or `discord.Forbidden`. -/
inductive EditOutcome where
  | ok
  | notFound
  | forbidden
deriving DecidableEq, Repr

/-- What `upsert_status_message` did to the external message. -/
inductive MessageAction where
  | edited
  | created
  | abortedForbidden
deriving DecidableEq, Repr

/-- Embeds `upsert_status_message` (bot.py:579-609).  The snapshot fetch
and embed construction affect neither the persisted state nor the
control flow and are not modeled.  `selected` is the `selected_id`
parameter, `edit` the platform's response to `fetch_message`/`edit` of
the stored message, `newId` the id assigned to a newly sent message.
On `Forbidden` the function logs an error and returns; on `NotFound` it
falls through to sending a new message and persisting its id. -/
def upsert_status_message (st : BotState) (servers : List Server)
    (selected : Option String) (edit : EditOutcome) (newId : Nat) :
    BotState × MessageAction :=
  let msgId := st.status_message_id
  let active := resolve_active_server_id servers st.selected_server_id selected
  let st1 := (set_selected_server_id st active).1
  match msgId with
  | some _ =>
    match edit with
    | .ok => (st1, .edited)
    | .forbidden => (st1, .abortedForbidden)
    | .notFound => ({ st1 with status_message_id := some newId }, .created)
  | none => ({ st1 with status_message_id := some newId }, .created)

/-- Embeds `remove_server_by_id` (bot.py:128-143): filter the id out;
report removal (and persist) iff the length changed. -/
def remove_server_by_id (servers : List Server) (sid : String) :
    List Server × Bool :=
  let newServers := servers.filter (fun s => s.id != sid)
  if newServers.length = servers.length then (servers, false)
  else (newServers, true)

/-- The next-selection computation of `RemoveServerButton.callback`
(bot.py:485-509): remember the removed entry's index in the pre-removal
list; afterwards pick the entry at the same index, or the last entry if
that index is out of range, or nothing if the list emptied. -/
def button_next_selected (before : List Server) (sid : String) :
    Option String :=
  let idx := before.findIdx? (fun s => s.id == sid)
  let after := before.filter (fun s => s.id != sid)
  match after with
  | [] => none
  | a0 :: rest =>
    match idx with
    | none => some a0.id
    | some i =>
      if h : i < (a0 :: rest).length then some (((a0 :: rest).get ⟨i, h⟩).id)
      else some (((a0 :: rest).getLast (List.cons_ne_nil a0 rest)).id)

/-- Modelled from the spec (removal side-effect policy, §4.6): after
removing the active target, the next active selection is the target now
occupying the removed target's pre-removal index, or the last target if
the removed one was last, or nothing if none remain. -/
def spec_next_selected (before : List Server) (sid : String) :
    Option String :=
  match before.findIdx? (fun s => s.id == sid) with
  | none => none
  | some i =>
    match before.eraseIdx i with
    | [] => none
    | a0 :: rest =>
      if h : i < (a0 :: rest).length then some (((a0 :: rest).get ⟨i, h⟩).id)
      else some (((a0 :: rest).getLast (List.cons_ne_nil a0 rest)).id)

/-- The remove-button flow (`RemoveServerButton.callback`, bot.py:484-519)
from the point where the id to remove is known: remove it, compute the
next selection, and update the status message with that selection
preferred.  Returns the new registry, the new session state, whether a
removal happened, and the message action taken. -/
def button_remove_flow (db : List Server) (st : BotState) (sid : String)
    (edit : EditOutcome) (newId : Nat) :
    List Server × BotState × Bool × Option MessageAction :=
  let r := remove_server_by_id db sid
  if r.2 then
    let nextSel := button_next_selected db sid
    let res := upsert_status_message st r.1 nextSel edit newId
    (r.1, res.1, true, some res.2)
  else (db, st, false, none)

/-- The `/removeserver` command flow (bot.py:805-842) from the point
where the id to remove has been extracted: remove it, then update the
status message with no preferred selection. -/
def removeserver_cmd (db : List Server) (st : BotState) (sid : String)
    (edit : EditOutcome) (newId : Nat) :
    List Server × BotState × Bool × Option MessageAction :=
  let r := remove_server_by_id db sid
  if r.2 then
    let res := upsert_status_message st r.1 none edit newId
    (r.1, res.1, true, some res.2)
  else (db, st, false, none)

/-- The registry mutation of the `/addserver` command (bot.py:709-725):
reject when the id is already present (no save), otherwise append and
persist.  Returns the new list, whether it was added, and whether
`save_servers` was called. -/
def addserver_add (db : List Server) (sid name : String) :
    List Server × Bool × Bool :=
  if db.any (fun s => s.id == sid) then (db, false, false)
  else (db ++ [⟨sid, name⟩], true, true)

/-- The registry mutation of `AddServerModal.on_submit` (bot.py:429-436):
the same duplicate check and append as the command path. -/
def modal_add (db : List Server) (sid name : String) :
    List Server × Bool × Bool :=
  if db.any (fun s => s.id == sid) then (db, false, false)
  else (db ++ [⟨sid, name⟩], true, true)

/-- A JSON document, as returned by `json.load`. -/
inductive Json where
  | null
  | bool (b : Bool)
  | num (n : Int)
  | str (s : String)
  | arr (xs : List Json)
  | obj (fields : List (String × Json))

/-- Whether a JSON document is an object (a Python dict). -/
def Json.isDict : Json → Bool
  | .obj _ => true
  | _ => false

/-- Embeds `load_state` (bot.py:203-210).  `file` is the state file's
condition: `none` when `STATE_FILE` does not exist, otherwise its
content; `parse` is `json.load`, which either returns a document or
raises.  A missing file returns `{}` before the `try`; any exception
while opening or parsing returns `{}`. -/
def load_state (file : Option String)
    (parse : String → Except String Json) : Json :=
  match file with
  | none => Json.obj []
  | some s =>
    match parse s with
    | .ok j => j
    | .error _ => Json.obj []

theorem contains_ids_iff (servers : List Server) (x : String) :
    (servers.map Server.id).contains x = true ↔ ∃ s ∈ servers, s.id = x := by
  simp

theorem resolve_cons_some (s0 : Server) (rest : List Server)
    (stored preferred : Option String) :
    ∃ x, resolve_active_server_id (s0 :: rest) stored preferred = some x := by
  cases preferred with
  | some p =>
    cases stored with
    | some t =>
      simp only [resolve_active_server_id, current_selected_server_id]
      by_cases hp : ((s0 :: rest).map Server.id).contains p = true
      · exact ⟨p, by rw [if_pos hp]⟩
      · rw [if_neg hp]
        by_cases ht : t ≠ "" ∧ ((s0 :: rest).map Server.id).contains t = true
        · exact ⟨t, by rw [if_pos ht]⟩
        · exact ⟨s0.id, by rw [if_neg ht]⟩
    | none =>
      simp only [resolve_active_server_id, current_selected_server_id]
      by_cases hp : ((s0 :: rest).map Server.id).contains p = true
      · exact ⟨p, by rw [if_pos hp]⟩
      · exact ⟨s0.id, by rw [if_neg hp]⟩
  | none =>
    cases stored with
    | some t =>
      simp only [resolve_active_server_id, current_selected_server_id]
      by_cases ht : t ≠ "" ∧ ((s0 :: rest).map Server.id).contains t = true
      · exact ⟨t, by rw [if_pos ht]⟩
      · exact ⟨s0.id, by rw [if_neg ht]⟩
    | none => exact ⟨s0.id, rfl⟩

theorem resolve_preferred (servers : List Server) (stored : Option String)
    (p : String) (hmem : ∃ s ∈ servers, s.id = p) :
    resolve_active_server_id servers stored (some p) = some p := by
  cases servers with
  | nil => rcases hmem with ⟨s, hs, -⟩; exact absurd hs (List.not_mem_nil s)
  | cons s0 rest =>
    have hc : ((s0 :: rest).map Server.id).contains p = true :=
      (contains_ids_iff _ _).mpr hmem
    cases stored with
    | some t =>
      simp only [resolve_active_server_id, current_selected_server_id]
      rw [if_pos hc]
    | none =>
      simp only [resolve_active_server_id, current_selected_server_id]
      rw [if_pos hc]

/-- Claim C1: the resolved active target id follows the priority order:
the preferred id if it names a target in the registry; otherwise the
persisted selected id if it still names a target in the registry;
otherwise the first target in registry order; and `none` exactly when the
registry is empty.  The hypothesis `hids` records the data-model
invariant that target ids are (non-empty) numeric identifier strings. -/
theorem resolve_priority (servers : List Server) (stored preferred : Option String)
    (hids : ∀ s ∈ servers, s.id ≠ "") :
    (resolve_active_server_id servers stored preferred = none ↔ servers = []) ∧
    (∀ p, preferred = some p → (∃ s ∈ servers, s.id = p) →
      resolve_active_server_id servers stored preferred = some p) ∧
    (∀ t, (∀ p, preferred = some p → ¬ ∃ s ∈ servers, s.id = p) →
      stored = some t → (∃ s ∈ servers, s.id = t) →
      resolve_active_server_id servers stored preferred = some t) ∧
    ((∀ p, preferred = some p → ¬ ∃ s ∈ servers, s.id = p) →
      (∀ t, stored = some t → ¬ ∃ s ∈ servers, s.id = t) →
      ∀ s0 rest, servers = s0 :: rest →
      resolve_active_server_id servers stored preferred = some s0.id) := by
  refine ⟨?_, ?_, ?_, ?_⟩
  · constructor
    · intro h
      cases servers with
      | nil => rfl
      | cons s0 rest =>
        rcases resolve_cons_some s0 rest stored preferred with ⟨x, hx⟩
        rw [hx] at h
        exact Option.noConfusion h
    · rintro rfl; rfl
  · rintro p rfl hmem
    exact resolve_preferred servers stored p hmem
  · rintro t hpref rfl hmem
    cases servers with
    | nil => rcases hmem with ⟨s, hs, -⟩; exact absurd hs (List.not_mem_nil s)
    | cons s0 rest =>
      have hc : ((s0 :: rest).map Server.id).contains t = true :=
        (contains_ids_iff _ _).mpr hmem
      have hne : t ≠ "" := by
        rcases hmem with ⟨s, hs, rfl⟩; exact hids s hs
      cases preferred with
      | some p =>
        have hnp : ¬ ((s0 :: rest).map Server.id).contains p = true := by
          intro hcp
          exact hpref p rfl ((contains_ids_iff _ _).mp hcp)
        simp only [resolve_active_server_id, current_selected_server_id]
        rw [if_neg hnp, if_pos ⟨hne, hc⟩]
      | none =>
        simp only [resolve_active_server_id, current_selected_server_id]
        rw [if_pos ⟨hne, hc⟩]
  · rintro hpref hstored s0 rest rfl
    cases preferred with
    | some p =>
      have hnp : ¬ ((s0 :: rest).map Server.id).contains p = true := by
        intro hcp
        exact hpref p rfl ((contains_ids_iff _ _).mp hcp)
      cases stored with
      | some t =>
        have hnt : ¬ (t ≠ "" ∧ ((s0 :: rest).map Server.id).contains t = true) := by
          rintro ⟨-, hct⟩
          exact hstored t rfl ((contains_ids_iff _ _).mp hct)
        simp only [resolve_active_server_id, current_selected_server_id]
        rw [if_neg hnp, if_neg hnt]
      | none =>
        simp only [resolve_active_server_id, current_selected_server_id]
        rw [if_neg hnp]
    | none =>
      cases stored with
      | some t =>
        have hnt : ¬ (t ≠ "" ∧ ((s0 :: rest).map Server.id).contains t = true) := by
          rintro ⟨-, hct⟩
          exact hstored t rfl ((contains_ids_iff _ _).mp hct)
        simp only [resolve_active_server_id, current_selected_server_id]
        rw [if_neg hnt]
      | none => rfl

/-- Witness for C1: registry `[{id:"1"},{id:"2"}]`, persisted selection
`"2"`, preferred `"1"`: the preferred id wins. -/
theorem resolve_priority_witness :
    resolve_active_server_id [⟨"1", "a"⟩, ⟨"2", "b"⟩] (some "2") (some "1")
      = some "1" :=
  (resolve_priority [⟨"1", "a"⟩, ⟨"2", "b"⟩] (some "2") (some "1")
    (by decide)).2.1 "1" rfl ⟨⟨"1", "a"⟩, by simp, rfl⟩

/-- Claim C3 is false as stated: the claim entails that prefixing a
429-with-parseable-`Retry-After` response leaves the attempt budget and
backoff progression untouched, so a run of two attempts that would reach
the third response and succeed must still do so.  In the code the 429
retry consumes the first of the two attempts, and the same run raises
instead. -/
theorem fetch_429_counterexample :
    aiohttp_request 2 1 (fun _ => 0)
      [.rate (some (some 2)) "", .netError "boom", .success "p"] =
      (.raised (.net "boom"), [2]) ∧
    aiohttp_request 2 1 (fun _ => 0) [.netError "boom", .success "p"] =
      (.ok "p", [1 * 2 ^ 0 + 0]) :=
  ⟨rfl, rfl⟩

/-- Claim C3 (amended): on an HTTP 429 whose `Retry-After` header is
present and parseable as `w`, the fetcher sleeps exactly `w` and then
retries, but that retry consumes an attempt from the budget and the
backoff exponent advances with it (the recursive call runs with one
fewer remaining attempt and attempt index `a + 1`); when the header is
absent, the 429 follows the standard backoff-then-retry / raise-on-last
path of any HTTP error. -/
theorem fetch_429_retry_after (base : ℚ) (jit : Nat → ℚ) (rem a : Nat)
    (w : ℚ) (b : String) (evs : List HttpEvent) :
    (fetchLoop base jit (rem + 1) a (.rate (some (some w)) b :: evs) =
      ((fetchLoop base jit rem (a + 1) evs).1,
        w :: (fetchLoop base jit rem (a + 1) evs).2)) ∧
    (rem ≠ 0 →
      fetchLoop base jit (rem + 1) a (.rate none b :: evs) =
        ((fetchLoop base jit rem (a + 1) evs).1,
          (base * 2 ^ a + jit a) :: (fetchLoop base jit rem (a + 1) evs).2)) ∧
    (fetchLoop base jit 1 a (.rate none b :: evs) =
      (.raised (.http 429 b), [])) := by
  refine ⟨rfl, ?_, ?_⟩
  · intro h
    cases rem with
    | zero => exact absurd rfl h
    | succ n => rfl
  · rfl

/-- Witness for the amended C3 at a concrete input: one 429 without the
header, two attempts remaining, backs off by `base * 2 ^ 0 + jitter`. -/
theorem fetch_429_retry_after_witness :
    fetchLoop 1 (fun _ => 0) 2 0 [.rate none "x"] =
      ((fetchLoop 1 (fun _ => 0) 1 1 []).1,
        ((1 : ℚ) * 2 ^ 0 + 0) :: (fetchLoop 1 (fun _ => 0) 1 1 []).2) :=
  (fetch_429_retry_after 1 (fun _ => 0) 1 0 3 "x" []).2.1 (by decide)

/-- Claim C4 names a code bug: with every attempt answered by HTTP 429
with a parseable `Retry-After`, each iteration ends in `continue`, the
loop is exhausted, and the function falls off its end returning `None`
(the `.retNone` outcome) instead of raising a fetch-failed error. -/
theorem fetch_sentinel_on_exhaustion :
    aiohttp_request 3 (1 / 2) (fun _ => 0)
      [.rate (some (some 1)) "", .rate (some (some 1)) "",
       .rate (some (some 1)) ""] =
      (.retNone, [1, 1, 1]) :=
  rfl

/-- Claim C10 is false as stated: a state file containing valid JSON that
is not an object is returned as-is, not as a dictionary. -/
theorem load_state_counterexample :
    load_state (some "[1, 2]")
        (fun _ => Except.ok (Json.arr [Json.num 1, Json.num 2])) =
      Json.arr [Json.num 1, Json.num 2] ∧
    (Json.arr [Json.num 1, Json.num 2]).isDict = false :=
  ⟨rfl, rfl⟩

/-- Claim C10 (amended): `load_state` is total and never raises: a
missing file and unparseable content yield the empty default `{}`; valid
JSON yields the parsed document itself, which is a dictionary exactly
when the document is a JSON object. -/
theorem load_state_total (parse : String → Except String Json) :
    (load_state none parse = Json.obj []) ∧
    (∀ s e, parse s = .error e → load_state (some s) parse = Json.obj []) ∧
    (∀ s j, parse s = .ok j → load_state (some s) parse = j) := by
  refine ⟨rfl, ?_, ?_⟩
  · intro s e h
    simp [load_state, h]
  · intro s j h
    simp [load_state, h]

/-- Witness for the amended C10: a file holding `"\x7b"` on which the
parser fails yields the empty default. -/
theorem load_state_total_witness :
    load_state (some "\x7b") (fun _ => Except.error "Expecting value")
      = Json.obj [] :=
  (load_state_total (fun _ => Except.error "Expecting value")).2.1
    "\x7b" "Expecting value" rfl

/-- Claim C7: adding a target whose id is already present is rejected on
both the `/addserver` command path and the modal path: the registry list
is returned unchanged and `save_servers` is not called (so the persisted
document stays byte-for-byte identical); and every add preserves the
uniqueness invariant on ids. -/
theorem add_duplicate_rejected (db : List Server) (sid name : String) :
    ((∃ s ∈ db, s.id = sid) →
      addserver_add db sid name = (db, false, false) ∧
      modal_add db sid name = (db, false, false)) ∧
    ((db.map Server.id).Nodup →
      ((addserver_add db sid name).1.map Server.id).Nodup ∧
      ((modal_add db sid name).1.map Server.id).Nodup) := by
  have hany : db.any (fun s => s.id == sid) = true ↔ ∃ s ∈ db, s.id = sid := by
    simp [List.any_eq_true]
  constructor
  · intro hmem
    have h := hany.mpr hmem
    exact ⟨by simp [addserver_add, h], by simp [modal_add, h]⟩
  · intro hnd
    by_cases h : db.any (fun s => s.id == sid) = true
    · exact ⟨by simp [addserver_add, h, hnd], by simp [modal_add, h, hnd]⟩
    · have hsid : sid ∉ db.map Server.id := by
        intro hmem
        rcases List.mem_map.mp hmem with ⟨s, hs, rfl⟩
        exact h (hany.mpr ⟨s, hs, rfl⟩)
      have hnodup : (db.map Server.id ++ [sid]).Nodup := by
        rw [List.nodup_append]
        refine ⟨hnd, List.nodup_singleton sid, ?_⟩
        intro a ha hb
        rw [List.mem_singleton] at hb
        subst hb
        exact hsid ha
      constructor
      · simpa [addserver_add, h] using hnodup
      · simpa [modal_add, h] using hnodup

/-- Witness for C7: adding id `"1"` to a registry already holding it is
rejected on both paths with the registry unchanged and no save. -/
theorem add_duplicate_rejected_witness :
    addserver_add [⟨"1", "a"⟩] "1" "b" = ([⟨"1", "a"⟩], false, false) ∧
    modal_add [⟨"1", "a"⟩] "1" "b" = ([⟨"1", "a"⟩], false, false) :=
  (add_duplicate_rejected [⟨"1", "a"⟩] "1" "b").1 ⟨⟨"1", "a"⟩, by simp, rfl⟩

theorem set_selected_keeps_message (st : BotState) (x : Option String) :
    ((set_selected_server_id st x).1).status_message_id
      = st.status_message_id := by
  simp only [set_selected_server_id]
  split <;> rfl

theorem set_selected_sets (st : BotState) (x : Option String) :
    ((set_selected_server_id st x).1).selected_server_id = x := by
  simp only [set_selected_server_id, current_selected_server_id]
  split
  · rename_i h
    exact h
  · rfl

/-- Claim C9: when editing the stored status message is forbidden by the
platform, the reconciliation cycle aborts: the action taken is the
operator-visible abort, no replacement message is created, and the
stored display message handle is unchanged. -/
theorem upsert_forbidden_aborts (st : BotState) (servers : List Server)
    (selected : Option String) (newId : Nat) (m : Nat)
    (hmsg : st.status_message_id = some m) :
    (upsert_status_message st servers selected .forbidden newId).2 =
      .abortedForbidden ∧
    (upsert_status_message st servers selected
      .forbidden newId).1.status_message_id = some m := by
  constructor
  · simp only [upsert_status_message, hmsg]
  · simp only [upsert_status_message, hmsg]
    rw [set_selected_keeps_message]
    exact hmsg

/-- Witness for C9 at a concrete state: the handle `5` survives and the
cycle reports the abort. -/
theorem upsert_forbidden_aborts_witness :
    (upsert_status_message ⟨some 5, some "1"⟩ [] none .forbidden 9).2 =
      .abortedForbidden ∧
    (upsert_status_message ⟨some 5, some "1"⟩ [] none
      .forbidden 9).1.status_message_id = some 5 :=
  upsert_forbidden_aborts ⟨some 5, some "1"⟩ [] none 9 5 rfl

theorem cacheLookup_insert (cache : StatusCache) (sid : String) (t : ℚ)
    (snap : Snapshot) :
    cacheLookup (cacheInsert cache sid t snap) sid = some (t, snap) := by
  simp [cacheLookup, cacheInsert]

theorem get_status_hit (cache : StatusCache) (sid : String)
    (tRead tWrite : ℚ) (fetch : Except String (Option BMPayload))
    (scrape : Option String) (t : ℚ) (snap : Snapshot)
    (hl : cacheLookup cache sid = some (t, snap))
    (hf : tRead - t < CACHE_TTL) :
    get_status_battlemetrics cache sid tRead tWrite fetch scrape
      = .ok (snap, cache, false) := by
  simp only [get_status_battlemetrics, hl]
  rw [if_pos hf]

theorem get_status_stale (cache : StatusCache) (sid : String)
    (tRead tWrite : ℚ) (fetch : Except String (Option BMPayload))
    (scrape : Option String) (t : ℚ) (snap : Snapshot)
    (hl : cacheLookup cache sid = some (t, snap))
    (hf : ¬ tRead - t < CACHE_TTL) :
    ∀ p, get_status_battlemetrics cache sid tRead tWrite fetch scrape = .ok p →
      p.2.2 = true := by
  intro p hp
  simp only [get_status_battlemetrics, hl] at hp
  rw [if_neg hf] at hp
  cases fetch with
  | error e =>
    rw [← Except.ok.inj hp]
  | ok op =>
    cases op with
    | none => exact absurd hp (by simp)
    | some payload => rw [← Except.ok.inj hp]

theorem get_status_entry (cache : StatusCache) (sid : String)
    (tRead tWrite : ℚ) (fetch : Except String (Option BMPayload))
    (scrape : Option String) :
    ∀ p, get_status_battlemetrics cache sid tRead tWrite fetch scrape = .ok p →
      ∃ t1, cacheLookup p.2.1 sid = some (t1, p.1) := by
  intro p hp
  cases hl : cacheLookup cache sid with
  | none =>
    simp only [get_status_battlemetrics, hl] at hp
    cases fetch with
    | error e =>
      rw [← Except.ok.inj hp]
      exact ⟨tWrite, cacheLookup_insert _ _ _ _⟩
    | ok op =>
      cases op with
      | none => exact absurd hp (by simp)
      | some payload =>
        rw [← Except.ok.inj hp]
        exact ⟨tWrite, cacheLookup_insert _ _ _ _⟩
  | some ts =>
    obtain ⟨t, snap⟩ := ts
    by_cases hf : tRead - t < CACHE_TTL
    · rw [get_status_hit cache sid tRead tWrite fetch scrape t snap hl hf] at hp
      rw [← Except.ok.inj hp]
      exact ⟨t, hl⟩
    · simp only [get_status_battlemetrics, hl] at hp
      rw [if_neg hf] at hp
      cases fetch with
      | error e =>
        rw [← Except.ok.inj hp]
        exact ⟨tWrite, cacheLookup_insert _ _ _ _⟩
      | ok op =>
        cases op with
        | none => exact absurd hp (by simp)
        | some payload =>
          rw [← Except.ok.inj hp]
          exact ⟨tWrite, cacheLookup_insert _ _ _ _⟩

/-- Claim C5: a cache entry younger than the 10-second TTL is served
as-is with no network fetch; every call that returns a value leaves an
entry for the id whose snapshot is the value it returned, so a second
call within the TTL window of that entry returns the identical snapshot
and performs no further fetch (at most one fetch across the two calls);
and a call that finds only an entry at least TTL old goes to the
fetcher: every value such a call returns carries the fetched flag. -/
theorem cache_ttl_behaviour (cache : StatusCache) (sid : String) :
    (∀ tRead tWrite fetch scrape t snap,
      cacheLookup cache sid = some (t, snap) → tRead - t < CACHE_TTL →
      get_status_battlemetrics cache sid tRead tWrite fetch scrape
        = .ok (snap, cache, false)) ∧
    (∀ tR1 tW1 f1 sc1 p1,
      get_status_battlemetrics cache sid tR1 tW1 f1 sc1 = .ok p1 →
      ∃ t1, cacheLookup p1.2.1 sid = some (t1, p1.1)) ∧
    (∀ tR1 tW1 f1 sc1 p1 tR2 tW2 f2 sc2 t1,
      get_status_battlemetrics cache sid tR1 tW1 f1 sc1 = .ok p1 →
      cacheLookup p1.2.1 sid = some (t1, p1.1) →
      tR2 - t1 < CACHE_TTL →
      get_status_battlemetrics p1.2.1 sid tR2 tW2 f2 sc2
        = .ok (p1.1, p1.2.1, false)) ∧
    (∀ tRead tWrite fetch scrape t snap p,
      cacheLookup cache sid = some (t, snap) → ¬ tRead - t < CACHE_TTL →
      get_status_battlemetrics cache sid tRead tWrite fetch scrape = .ok p →
      p.2.2 = true) := by
  refine ⟨?_, ?_, ?_, ?_⟩
  · intro tRead tWrite fetch scrape t snap hl hf
    exact get_status_hit _ _ _ _ _ _ _ _ hl hf
  · intro tR1 tW1 f1 sc1 p1 hp
    exact get_status_entry _ _ _ _ _ _ p1 hp
  · intro tR1 tW1 f1 sc1 p1 tR2 tW2 f2 sc2 t1 hp hl hf
    exact get_status_hit _ _ _ _ _ _ _ _ hl hf
  · intro tRead tWrite fetch scrape t snap p hl hf hp
    exact get_status_stale _ _ _ _ _ _ _ _ hl hf p hp

/-- Witness for C5: a 5-second-old entry is served unchanged with no
fetch, even though the supplied fetch outcome would have failed. -/
theorem cache_ttl_behaviour_witness :
    get_status_battlemetrics [("7", 0, failureSnapshot "7")] "7" 5 6
        (.error "e") none
      = .ok (failureSnapshot "7", [("7", 0, failureSnapshot "7")], false) :=
  (cache_ttl_behaviour [("7", 0, failureSnapshot "7")] "7").1 5 6 (.error "e")
    none 0 (failureSnapshot "7") rfl (by norm_num [CACHE_TTL])

/-- Claim C6 is false as stated: when the fetcher returns the `None`
sentinel instead of raising — reachable, per the C4 input, whenever
every attempt is a 429 with a parseable `Retry-After` — the attribute
access after the `try` block raises `AttributeError` out of
`get_status_battlemetrics`, the layer that owns the cache; the failure
snapshot that `fetch_status` then synthesizes is not stored in the
cache, which stays empty here. -/
theorem cache_failure_escape_counterexample :
    get_status_battlemetrics [] "7" 0 1 (.ok none) none
      = .error "AttributeError" ∧
    fetch_status "7" [] (get_status_battlemetrics [] "7" 0 1 (.ok none) none)
      = ({ online := false, name := none, players := none,
           max_players := none, game_port := none, server_time := none,
           source := none, server_id := "7",
           error := some "AttributeError" }, [], false) ∧
    cacheLookup
        (fetch_status "7" []
          (get_status_battlemetrics [] "7" 0 1 (.ok none) none)).2.1 "7"
      = none :=
  ⟨rfl, rfl, rfl⟩

/-- Claim C6 (amended): a fetch failure that raises is caught at the
cache layer: on a miss it is converted to the failure snapshot —
`online = false` with an error reason — which is returned, stored in
the cache at the write timestamp, and served from the cache for the TTL
window.  But when the fetcher instead returns the `None` sentinel (the
C4 bug), the attribute access on it raises past the handler of the
cache layer: `get_status_battlemetrics` raises, `fetch_status` converts the
exception to a failure snapshot, and that snapshot is not cached — the
cache is left exactly as it was. -/
theorem cache_failure_policy (cache : StatusCache) (sid : String)
    (tRead tWrite : ℚ) (e : String) (scrape : Option String)
    (hmiss : ∀ t snap, cacheLookup cache sid = some (t, snap) →
      ¬ tRead - t < CACHE_TTL) :
    (get_status_battlemetrics cache sid tRead tWrite (.error e) scrape
      = .ok (failureSnapshot sid,
         cacheInsert cache sid tWrite (failureSnapshot sid), true)) ∧
    (failureSnapshot sid).online = false ∧
    (failureSnapshot sid).error = some "Failed to fetch from BattleMetrics" ∧
    (∀ t2 tW2 f2 sc2, t2 - tWrite < CACHE_TTL →
      get_status_battlemetrics
          (cacheInsert cache sid tWrite (failureSnapshot sid)) sid
          t2 tW2 f2 sc2
        = .ok (failureSnapshot sid,
           cacheInsert cache sid tWrite (failureSnapshot sid), false)) ∧
    (get_status_battlemetrics cache sid tRead tWrite (.ok none) scrape
      = .error "AttributeError" ∧
     (fetch_status sid cache
        (get_status_battlemetrics cache sid tRead tWrite (.ok none) scrape)).2.1
       = cache) := by
  have hmain : get_status_battlemetrics cache sid tRead tWrite (.error e) scrape
      = .ok (failureSnapshot sid,
         cacheInsert cache sid tWrite (failureSnapshot sid), true) := by
    cases hl : cacheLookup cache sid with
    | none => simp only [get_status_battlemetrics, hl]
    | some ts =>
      obtain ⟨t, snap⟩ := ts
      simp only [get_status_battlemetrics, hl]
      rw [if_neg (hmiss t snap hl)]
  have hescape : get_status_battlemetrics cache sid tRead tWrite (.ok none) scrape
      = .error "AttributeError" := by
    cases hl : cacheLookup cache sid with
    | none => simp only [get_status_battlemetrics, hl]
    | some ts =>
      obtain ⟨t, snap⟩ := ts
      simp only [get_status_battlemetrics, hl]
      rw [if_neg (hmiss t snap hl)]
  refine ⟨hmain, rfl, rfl, ?_, hescape, ?_⟩
  · intro t2 tW2 f2 sc2 hf
    exact get_status_hit _ _ _ _ _ _ _ _ (cacheLookup_insert _ _ _ _) hf
  · rw [hescape]
    rfl

/-- Witness for the amended C6 at a concrete state: a raising fetch
against an empty cache yields the cached failure snapshot, while the
sentinel payload raises on and leaves the cache untouched. -/
theorem cache_failure_policy_witness :
    get_status_battlemetrics [] "7" 0 1 (.error "boom") none
      = .ok (failureSnapshot "7", cacheInsert [] "7" 1 (failureSnapshot "7"),
         true) ∧
    (fetch_status "7" []
        (get_status_battlemetrics [] "7" 0 1 (.ok none) none)).2.1 = [] :=
  ⟨(cache_failure_policy [] "7" 0 1 "boom" none
      (fun t snap h => by simp [cacheLookup] at h)).1,
   (cache_failure_policy [] "7" 0 1 "boom" none
      (fun t snap h => by simp [cacheLookup] at h)).2.2.2.2.2⟩

theorem exists_first_occurrence (db : List Server) (sid : String)
    (hmem : ∃ s ∈ db, s.id = sid) :
    ∃ l1 b l2, db = l1 ++ b :: l2 ∧ b.id = sid ∧ ∀ s ∈ l1, s.id ≠ sid := by
  induction db with
  | nil => rcases hmem with ⟨s, hs, -⟩; exact absurd hs (List.not_mem_nil s)
  | cons b0 bs ih =>
    by_cases h0 : b0.id = sid
    · exact ⟨[], b0, bs, rfl, h0, fun s hs => absurd hs (List.not_mem_nil s)⟩
    · have hmem2 : ∃ s ∈ bs, s.id = sid := by
        rcases hmem with ⟨s, hs, hsid⟩
        rcases List.mem_cons.mp hs with rfl | hs2
        · exact absurd hsid h0
        · exact ⟨s, hs2, hsid⟩
      rcases ih hmem2 with ⟨l1, b, l2, heq, hb, hl1⟩
      refine ⟨b0 :: l1, b, l2, by rw [heq, List.cons_append], hb, ?_⟩
      intro s hs
      rcases List.mem_cons.mp hs with rfl | hs2
      · exact h0
      · exact hl1 s hs2

theorem findIdx?_first (sid : String) : ∀ (l1 : List Server) (b : Server)
    (l2 : List Server) (n : Nat), b.id = sid → (∀ s ∈ l1, s.id ≠ sid) →
    List.findIdx? (fun s => s.id == sid) (l1 ++ b :: l2) n
      = some (n + l1.length) := by
  intro l1
  induction l1 with
  | nil =>
    intro b l2 n hb _
    simp [List.findIdx?_cons, hb]
  | cons a l1 ih =>
    intro b l2 n hb hl1
    have ha : (a.id == sid) = false := by
      simp [hl1 a (List.mem_cons_self a l1)]
    have harg := ih b l2 (n + 1) hb (fun s hs => hl1 s (List.mem_cons_of_mem a hs))
    rw [List.cons_append, List.findIdx?_cons]
    simp only [ha, Bool.false_eq_true, if_false, harg, List.length_cons]
    congr 1
    omega

theorem filter_decomp (sid : String) (l1 : List Server) (b : Server)
    (l2 : List Server) (hb : b.id = sid) (hl1 : ∀ s ∈ l1, s.id ≠ sid)
    (hl2 : ∀ s ∈ l2, s.id ≠ sid) :
    (l1 ++ b :: l2).filter (fun s => s.id != sid) = l1 ++ l2 := by
  have h1 : List.filter (fun s => s.id != sid) l1 = l1 :=
    List.filter_eq_self.mpr (fun a ha => by simp [hl1 a ha])
  have h2 : List.filter (fun s => s.id != sid) l2 = l2 :=
    List.filter_eq_self.mpr (fun a ha => by simp [hl2 a ha])
  simp [List.filter_append, List.filter_cons, hb, h1, h2]

theorem eraseIdx_decomp : ∀ (l1 : List Server) (b : Server) (l2 : List Server),
    (l1 ++ b :: l2).eraseIdx l1.length = l1 ++ l2 := by
  intro l1
  induction l1 with
  | nil => intro b l2; rfl
  | cons a l1 ih =>
    intro b l2
    show a :: ((l1 ++ b :: l2).eraseIdx l1.length) = a :: (l1 ++ l2)
    rw [ih]

theorem remove_found (db : List Server) (sid : String)
    (hmem : ∃ s ∈ db, s.id = sid) :
    remove_server_by_id db sid
      = (db.filter (fun s => s.id != sid), true) := by
  have hlt : (db.filter (fun s => s.id != sid)).length < db.length := by
    apply List.length_filter_lt_length_iff_exists.mpr
    rcases hmem with ⟨s, hs, hsid⟩
    exact ⟨s, hs, by simp [hsid]⟩
  simp [remove_server_by_id, Nat.ne_of_lt hlt]

theorem button_next_eq_spec (db : List Server) (sid : String)
    (hnd : (db.map Server.id).Nodup) (hmem : ∃ s ∈ db, s.id = sid) :
    button_next_selected db sid = spec_next_selected db sid ∧
    (∀ x, button_next_selected db sid = some x →
      ∃ s ∈ db.filter (fun s => s.id != sid), s.id = x) ∧
    (button_next_selected db sid = none →
      db.filter (fun s => s.id != sid) = []) := by
  obtain ⟨l1, b, l2, heq, hb, hl1⟩ := exists_first_occurrence db sid hmem
  subst heq
  have hl2 : ∀ s ∈ l2, s.id ≠ sid := by
    intro s hs hsid
    rw [List.map_append, List.nodup_append] at hnd
    rcases hnd with ⟨-, hcons, -⟩
    rw [List.map_cons] at hcons
    have hnot : b.id ∉ l2.map Server.id := (List.nodup_cons.mp hcons).1
    apply hnot
    rw [hb, ← hsid]
    exact List.mem_map_of_mem Server.id hs
  have hidx : List.findIdx? (fun s => s.id == sid) (l1 ++ b :: l2) 0
      = some l1.length := by
    rw [findIdx?_first sid l1 b l2 0 hb hl1, Nat.zero_add]
  have hfil : (l1 ++ b :: l2).filter (fun s => s.id != sid) = l1 ++ l2 :=
    filter_decomp sid l1 b l2 hb hl1 hl2
  have herase : (l1 ++ b :: l2).eraseIdx l1.length = l1 ++ l2 :=
    eraseIdx_decomp l1 b l2
  refine ⟨?_, ?_, ?_⟩
  · simp only [button_next_selected, spec_next_selected, hidx, hfil, herase]
  · intro x hx
    rw [hfil]
    cases hc : l1 ++ l2 with
    | nil =>
      simp only [button_next_selected, hidx, hfil, hc] at hx
      exact absurd hx (by simp)
    | cons a0 rest =>
      simp only [button_next_selected, hidx, hfil, hc] at hx
      by_cases h : l1.length < (a0 :: rest).length
      · rw [dif_pos h] at hx
        refine ⟨(a0 :: rest).get ⟨l1.length, h⟩, List.get_mem _ _ _, ?_⟩
        exact Option.some.inj hx
      · rw [dif_neg h] at hx
        refine ⟨(a0 :: rest).getLast (List.cons_ne_nil a0 rest),
          List.getLast_mem _, ?_⟩
        exact Option.some.inj hx
  · intro hx
    rw [hfil]
    cases hc : l1 ++ l2 with
    | nil => rfl
    | cons a0 rest =>
      simp only [button_next_selected, hidx, hfil, hc] at hx
      by_cases h : l1.length < (a0 :: rest).length
      · rw [dif_pos h] at hx; exact absurd hx (by simp)
      · rw [dif_neg h] at hx; exact absurd hx (by simp)

theorem upsert_selected (st : BotState) (servers : List Server)
    (sel : Option String) (edit : EditOutcome) (newId : Nat) :
    (upsert_status_message st servers sel edit newId).1.selected_server_id
      = resolve_active_server_id servers st.selected_server_id sel := by
  simp only [upsert_status_message]
  cases h : st.status_message_id with
  | none => simp [set_selected_sets]
  | some m => cases edit <;> simp [set_selected_sets]

/-- Claim C2 is false as stated: the same-index policy does not hold on
every removal path offered to users.  On the `/removeserver` command
path, removing the active `B` from `[A, B, C]` must per the claim yield
active `C`; the command path passes no preferred id to the
reconciliation, whose resolution rule falls back to the first target
`A`.  The spec-side policy value `C` is shown alongside. -/
theorem removeserver_cmd_counterexample :
    (removeserver_cmd [⟨"1", "A"⟩, ⟨"2", "B"⟩, ⟨"3", "C"⟩]
        ⟨some 5, some "2"⟩ "2" .ok 9).2.1.selected_server_id = some "1" ∧
    spec_next_selected [⟨"1", "A"⟩, ⟨"2", "B"⟩, ⟨"3", "C"⟩] "2"
      = some "3" ∧
    some "1" ≠ some "3" :=
  ⟨rfl, rfl, by decide⟩

/-- Claim C2 (amended): the same-index removal policy holds on the
remove-button path.  With unique ids, when the removed target was the
active selection, the flow removes it and the resulting active selection
is exactly the spec policy value: the target now at the removed index,
else the last target, else none when the registry emptied.  The
`/removeserver` command path instead reselects through the resolution
rule, collapsing to the first target (see the counterexample). -/
theorem remove_policy_button (db : List Server) (st : BotState)
    (sid : String) (edit : EditOutcome) (newId : Nat)
    (hnd : (db.map Server.id).Nodup) (hmem : ∃ s ∈ db, s.id = sid)
    (_hact : st.selected_server_id = some sid) :
    (button_remove_flow db st sid edit newId).2.2.1 = true ∧
    (button_remove_flow db st sid edit newId).2.1.selected_server_id
      = spec_next_selected db sid := by
  have hrm : remove_server_by_id db sid
      = (db.filter (fun s => s.id != sid), true) := remove_found db sid hmem
  obtain ⟨heqspec, hmem2, hnone⟩ := button_next_eq_spec db sid hnd hmem
  have hstep : button_remove_flow db st sid edit newId
      = (db.filter (fun s => s.id != sid),
         (upsert_status_message st (db.filter (fun s => s.id != sid))
           (button_next_selected db sid) edit newId).1, true,
         some ((upsert_status_message st (db.filter (fun s => s.id != sid))
           (button_next_selected db sid) edit newId).2)) := by
    simp [button_remove_flow, hrm]
  rw [hstep]
  refine ⟨rfl, ?_⟩
  show (upsert_status_message st (db.filter (fun s => s.id != sid))
      (button_next_selected db sid) edit newId).1.selected_server_id
    = spec_next_selected db sid
  rw [upsert_selected, ← heqspec]
  cases hbn : button_next_selected db sid with
  | none => rw [hnone hbn]; rfl
  | some x => exact resolve_preferred _ _ x (hmem2 x hbn)

/-- Witness for the amended C2: registry `[A, B, C]` with active `B`;
the button flow removes `B` and selects the same-index target `C`. -/
theorem remove_policy_button_witness :
    (button_remove_flow [⟨"1", "A"⟩, ⟨"2", "B"⟩, ⟨"3", "C"⟩]
        ⟨some 5, some "2"⟩ "2" .ok 9).2.2.1 = true ∧
    (button_remove_flow [⟨"1", "A"⟩, ⟨"2", "B"⟩, ⟨"3", "C"⟩]
        ⟨some 5, some "2"⟩ "2" .ok 9).2.1.selected_server_id
      = spec_next_selected [⟨"1", "A"⟩, ⟨"2", "B"⟩, ⟨"3", "C"⟩] "2" :=
  remove_policy_button [⟨"1", "A"⟩, ⟨"2", "B"⟩, ⟨"3", "C"⟩]
    ⟨some 5, some "2"⟩ "2" .ok 9 (by decide)
    ⟨⟨"2", "B"⟩, by simp, rfl⟩ rfl

theorem matchLit_eq_some : ∀ (l s r : List Char),
    matchLit l s = some r ↔ s = l ++ r := by
  intro l
  induction l with
  | nil =>
    intro s r
    simp [matchLit]
  | cons a l ih =>
    intro s r
    cases s with
    | nil => simp [matchLit]
    | cons c cs =>
      simp only [matchLit, List.cons_append]
      by_cases hc : c = a
      · subst hc
        rw [if_pos rfl, ih cs r]
        simp
      · rw [if_neg hc]
        simp [hc]

theorem digitRun_append : ∀ s : List Char,
    ∃ r, s = digitRun s ++ r ∧ (digitRun s).all Char.isDigit = true := by
  intro s
  induction s with
  | nil => exact ⟨[], rfl, rfl⟩
  | cons c cs ih =>
    by_cases h : c.isDigit = true
    · rcases ih with ⟨r, hr, hall⟩
      refine ⟨r, ?_, ?_⟩
      · simp only [digitRun]
        rw [if_pos h, List.cons_append, ← hr]
      · simp only [digitRun]
        rw [if_pos h]
        simp [h, hall]
    · refine ⟨c :: cs, ?_, ?_⟩
      · simp only [digitRun]
        rw [if_neg h, List.nil_append]
      · simp only [digitRun]
        rw [if_neg h]
        rfl

theorem searchDayz_sound : ∀ (u ds : List Char), searchDayz u = some ds →
    ∃ l r, u = l ++ litServers ++ (ds ++ r) ∧ ds ≠ [] ∧
      ds.all Char.isDigit = true := by
  intro u
  induction u with
  | nil => intro ds h; exact absurd h (by simp [searchDayz])
  | cons c cs ih =>
    intro ds h
    have step : searchDayz cs = some ds →
        ∃ l r, c :: cs = l ++ litServers ++ (ds ++ r) ∧ ds ≠ [] ∧
          ds.all Char.isDigit = true := by
      intro h2
      rcases ih ds h2 with ⟨l, r, heq, hne, hall⟩
      exact ⟨c :: l, r, by simp [heq], hne, hall⟩
    cases hm : matchLit litServers (c :: cs) with
    | none =>
      simp only [searchDayz, hm] at h
      exact step h
    | some rest =>
      cases rest with
      | nil =>
        simp only [searchDayz, hm] at h
        exact step h
      | cons d ds2 =>
        by_cases hd : d.isDigit = true
        · simp only [searchDayz, hm] at h
          rw [if_pos hd] at h
          have hds : digitRun (d :: ds2) = ds := by simpa using h
          rcases digitRun_append (d :: ds2) with ⟨r, hr, hall⟩
          have hu : c :: cs = litServers ++ (d :: ds2) :=
            (matchLit_eq_some litServers (c :: cs) (d :: ds2)).mp hm
          refine ⟨[], r, ?_, ?_, ?_⟩
          · rw [List.nil_append, hu, ← hds, ← hr]
          · rw [← hds]
            simp [digitRun, hd]
          · rw [← hds]
            exact hall
        · simp only [searchDayz, hm] at h
          rw [if_neg hd] at h
          exact step h

theorem hasDayzLink_nil_false : ¬ hasDayzLink [] := by
  rintro ⟨l, ds, r, heq, -, -⟩
  rcases List.append_eq_nil.mp heq.symm with ⟨h1, -⟩
  rcases List.append_eq_nil.mp h1 with ⟨h2, -⟩
  rcases List.append_eq_nil.mp h2 with ⟨-, h3⟩
  exact absurd h3 (by decide)

theorem searchDayz_complete : ∀ u : List Char, hasDayzLink u →
    (searchDayz u).isSome = true := by
  intro u
  induction u with
  | nil => intro h; exact absurd h hasDayzLink_nil_false
  | cons c cs ih =>
    rintro ⟨l, ds, r, heq, hne, hall⟩
    cases l with
    | nil =>
      rw [List.nil_append] at heq
      have hm : matchLit litServers (c :: cs) = some (ds ++ r) :=
        (matchLit_eq_some litServers (c :: cs) (ds ++ r)).mpr heq
      cases ds with
      | nil => exact (hne rfl).elim
      | cons d ds2 =>
        have hd : d.isDigit = true := by
          rw [List.all_cons] at hall
          exact (Bool.and_eq_true_iff.mp hall).1
        rw [List.cons_append] at hm
        simp [searchDayz, hm, hd]
    | cons a l2 =>
      have hstep : c :: cs = a :: (l2 ++ litServers ++ ds ++ r) := by
        rw [heq]; simp
      have h2 : cs = l2 ++ litServers ++ ds ++ r := (List.cons.inj hstep).2
      have hih := ih ⟨l2, ds, r, h2, hne, hall⟩
      cases hm : matchLit litServers (c :: cs) with
      | none => simpa [searchDayz, hm] using hih
      | some rest =>
        cases rest with
        | nil => simpa [searchDayz, hm] using hih
        | cons d ds2 =>
          by_cases hd : d.isDigit = true
          · simp [searchDayz, hm, hd]
          · simpa [searchDayz, hm, hd] using hih

theorem searchDayz_none_of_digits (u : List Char)
    (hall : u.all Char.isDigit = true) : searchDayz u = none := by
  cases hs : searchDayz u with
  | none => rfl
  | some ds =>
    rcases searchDayz_sound u ds hs with ⟨l, r, heq, -, -⟩
    have hmem : '/' ∈ u := by
      rw [heq]
      apply List.mem_append.mpr
      left
      apply List.mem_append.mpr
      right
      decide
    exact absurd (List.all_eq_true.mp hall _ hmem) (by decide)

theorem extract_bm_id_of_url (s : String) (ds : List Char) (hs : s ≠ "")
    (hsd : searchDayz (pyStrip s.toList) = some ds) :
    extract_bm_id s = some (String.mk ds) := by
  simp only [extract_bm_id, if_neg hs, hsd]

theorem extract_bm_id_of_bare (s : String)
    (hb : isBareDigits (pyStrip s.toList)) :
    extract_bm_id s = some (String.mk (pyStrip s.toList)) := by
  have hs : s ≠ "" := by
    intro h
    subst h
    exact hb.1 rfl
  have hsd : searchDayz (pyStrip s.toList) = none :=
    searchDayz_none_of_digits _ hb.2
  simp only [extract_bm_id, if_neg hs, hsd]
  exact if_pos hb

theorem extract_bm_id_rejects (s : String) (hs : s ≠ "")
    (hsd : searchDayz (pyStrip s.toList) = none)
    (hb : ¬ isBareDigits (pyStrip s.toList)) :
    extract_bm_id s = none := by
  simp only [extract_bm_id, if_neg hs, hsd]
  exact if_neg hb

/-- Claim C8 (amended): `extract_bm_id` accepts exactly the inputs whose
stripped form contains `/servers/dayz/<digits>` — the game segment is
fixed to `dayz`, not arbitrary — or is a bare digit string.  A bare
digit string is returned whole; a URL input yields a nonempty digit run
standing immediately after an occurrence of the `/servers/dayz/`
literal; every other input yields `none`. -/
theorem extract_bm_id_characterization :
    (∀ s : String, (extract_bm_id s).isSome = true ↔
      (hasDayzLink (pyStrip s.toList) ∨ isBareDigits (pyStrip s.toList))) ∧
    (∀ s : String, isBareDigits (pyStrip s.toList) →
      extract_bm_id s = some (String.mk (pyStrip s.toList))) ∧
    (∀ (s d : String), extract_bm_id s = some d →
      (∃ l r, pyStrip s.toList = l ++ litServers ++ d.toList ++ r ∧
        d.toList ≠ [] ∧ d.toList.all Char.isDigit = true) ∨
      (d.toList = pyStrip s.toList ∧ isBareDigits (pyStrip s.toList))) := by
  refine ⟨?_, ?_, ?_⟩
  · intro s
    by_cases hs : s = ""
    · subst hs
      constructor
      · intro h
        rw [show extract_bm_id "" = none from rfl] at h
        simp at h
      · rintro (hl | hb)
        · exact absurd hl (show ¬ hasDayzLink (pyStrip "".toList) from
            hasDayzLink_nil_false)
        · exact absurd rfl hb.1
    · constructor
      · intro h
        cases hsd : searchDayz (pyStrip s.toList) with
        | some ds =>
          left
          rcases searchDayz_sound _ ds hsd with ⟨l, r, heq, hne, hall⟩
          exact ⟨l, ds, r, by rw [heq]; simp, hne, hall⟩
        | none =>
          by_cases hb : isBareDigits (pyStrip s.toList)
          · right; exact hb
          · rw [extract_bm_id_rejects s hs hsd hb] at h
            simp at h
      · rintro (hl | hb)
        · have hsome := searchDayz_complete _ hl
          rcases Option.isSome_iff_exists.mp hsome with ⟨ds, hds⟩
          rw [extract_bm_id_of_url s ds hs hds]
          rfl
        · rw [extract_bm_id_of_bare s hb]
          rfl
  · intro s hb
    exact extract_bm_id_of_bare s hb
  · intro s d hd
    by_cases hs : s = ""
    · subst hs
      rw [show extract_bm_id "" = none from rfl] at hd
      exact absurd hd (by simp)
    · cases hsd : searchDayz (pyStrip s.toList) with
      | some ds =>
        left
        rw [extract_bm_id_of_url s ds hs hsd] at hd
        have hdds : d = String.mk ds := (Option.some.inj hd).symm
        subst hdds
        rcases searchDayz_sound _ ds hsd with ⟨l, r, heq, hne, hall⟩
        exact ⟨l, r, by rw [heq]; simp, hne, hall⟩
      | none =>
        by_cases hb : isBareDigits (pyStrip s.toList)
        · right
          rw [extract_bm_id_of_bare s hb] at hd
          have hdds : d = String.mk (pyStrip s.toList) :=
            (Option.some.inj hd).symm
          subst hdds
          exact ⟨rfl, hb⟩
        · rw [extract_bm_id_rejects s hs hsd hb] at hd
          exact absurd hd (by simp)

/-- Witness for the amended C8: the bare digit string `"12345"` is
returned whole. -/
theorem extract_bm_id_characterization_witness :
    extract_bm_id "12345" = some (String.mk (pyStrip "12345".toList)) :=
  extract_bm_id_characterization.2.1 "12345"
    (show pyStrip "12345".toList ≠ [] ∧
        (pyStrip "12345".toList).all Char.isDigit = true from
      ⟨by decide, by decide⟩)

/-- Claim C8 is false as stated: this URL contains
`/servers/<game>/<digits>` with game `rust`, yet the extractor — whose
regex fixes the game segment to `dayz` — rejects it. -/
theorem extract_bm_id_game_counterexample :
    ("https://www.battlemetrics.com/servers/rust/12345" : String)
      = "https://www.battlemetrics.com/servers/" ++ "rust" ++ "/" ++ "12345" ∧
    extract_bm_id "https://www.battlemetrics.com/servers/rust/12345"
      = none :=
  ⟨rfl, by decide⟩
